import Mathlib

/-!
Shallow embedding of the crab-vault authorization core.

Two Rust modules are modelled, each in its own Lean namespace:

- `CrabVaultAuth` embeds the crate `crates/crab-vault-auth` (file
  `src/lib.rs` together with `src/error.rs`).
- `CrabVault` embeds the gateway binary modules `src/http/auth.rs`,
  `src/http/middleware/auth.rs` and `src/error/auth.rs`.

External dependencies are treated as follows.  The `glob` crate is
abstracted by a `GlobLib` record holding a pattern type, a fallible
compile function modelling `Pattern::new` and a match function
`pmatch` modelling the match method of a compiled pattern; every
definition that uses globs is parameterised
by such a record.  The `jsonwebtoken` crate is modelled in the
`Jsonwebtoken` namespace: a token is kept in structured form (the
base64 and JSON wire codecs are bijections and are not modelled),
signatures are modelled by recording the key material a token was
signed with, and claim validation follows the validation routine of
jsonwebtoken 9.x for the settings this repository uses.  UUIDs are
modelled by their string rendering and serde serialization of the two
claim envelopes is spelled out field by field.
-/

/-- Models `jsonwebtoken::Algorithm`. -/
inductive Algorithm
  | HS256 | HS384 | HS512
  | RS256 | RS384 | RS512
  | PS256 | PS384 | PS512
  | ES256 | ES384
  | EdDSA
deriving DecidableEq

/-- Abstraction of the `glob` crate: a pattern type together with
`new` modelling fallible compilation and `pmatch` modelling the match
method of a compiled pattern. -/
structure GlobLib where
  Pat : Type
  new : String → Option Pat
  pmatch : Pat → String → Bool

/-- A trivial instance of the glob interface used to evaluate the
parameterised definitions on concrete inputs: compilation always
succeeds and every pattern accepts every string. -/
def trivialGlob : GlobLib where
  Pat := Unit
  new := fun _ => some ()
  pmatch := fun _ _ => true

/-- A glob interface in which the single pattern string "[" is
rejected by compilation (as the real glob crate rejects an unclosed
character class) and a compiled pattern accepts only the string it was
compiled from. -/
def literalGlob : GlobLib where
  Pat := String
  new := fun s => if s = "[" then none else some s
  pmatch := fun p s => p == s

/-- A minimal JSON value type used to state how serde serializes the
claim envelopes. -/
inductive Json
  | null
  | bool (b : Bool)
  | num (n : Int)
  | str (s : String)
  | arr (elems : List Json)
  | obj (fields : List (String × Json))

/-- Top-level keys of a JSON object (empty for non-objects). -/
def Json.keys : Json → List String
  | .obj fields => fields.map Prod.fst
  | _ => []

/-- Look up a top-level key of a JSON object. -/
def Json.lookupKey : Json → String → Option Json
  | .obj fields, k => fields.lookup k
  | _, _ => none

namespace CrabVaultAuth

/-- UUIDs are modelled by their hyphenated string rendering, which is
also how `uuid::Uuid` serializes. -/
abbrev Uuid := String

/-- Models `crab_vault_auth::Jwt<P>` (lib.rs, struct `Jwt`): the claim
envelope with standard claims and a custom payload field `load`. -/
structure Jwt (P : Type) where
  iss : String
  aud : List String
  exp : Int
  nbf : Int
  iat : Int
  jti : Uuid
  load : P
deriving DecidableEq

/-- Models `crab_vault_auth::HttpMethod` (lib.rs): the nine standard
verbs, `Other` for non-standard methods, and the three pseudo-values. -/
inductive HttpMethod
  | Get | Post | Put | Patch | Delete | Head | Options | Trace | Connect
  | Other
  | All
  | Safe
  | Unsafe
deriving DecidableEq

/-- Models `HttpMethod::safe` (lib.rs lines 676-694). -/
def HttpMethod.safe : HttpMethod → Bool
  | .Safe | .Get | .Head | .Options | .Trace => true
  | .Unsafe | .Connect | .Post | .Put | .Patch | .Delete | .Other | .All => false

/-- Models `impl From<&axum::http::Method> for HttpMethod` (lib.rs
lines 630-647); the axum method is represented by its name string. -/
def HttpMethod.fromAxum (m : String) : HttpMethod :=
  match m with
  | "GET" => .Get
  | "POST" => .Post
  | "PUT" => .Put
  | "PATCH" => .Patch
  | "DELETE" => .Delete
  | "HEAD" => .Head
  | "OPTIONS" => .Options
  | "TRACE" => .Trace
  | "CONNECT" => .Connect
  | _ => .Other

/-- The ten method values an incoming request can be converted to
(everything except the pseudo-values). -/
def requestMethods : List HttpMethod :=
  [.Get, .Post, .Put, .Patch, .Delete, .Head, .Options, .Trace, .Connect, .Other]

/-- Models `crab_vault_auth::Permission` (lib.rs, struct `Permission`). -/
structure Permission where
  methods : List HttpMethod
  resource_pattern : Option String
  max_size : Option Nat
  allowed_content_types : List String
deriving DecidableEq

/-- Models `Permission::new_root` (lib.rs). -/
def Permission.new_root : Permission where
  methods := [.All]
  resource_pattern := some "*"
  max_size := none
  allowed_content_types := ["*"]

/-- Models `Permission::new_minimum` (lib.rs). -/
def Permission.new_minimum : Permission where
  methods := []
  resource_pattern := none
  max_size := some 0
  allowed_content_types := []

/-- Models `crab_vault_auth::CompiledPermission` (lib.rs), parameterised
by the glob library. -/
structure CompiledPermission (G : GlobLib) where
  methods : List HttpMethod
  resource_pattern : Option String
  max_size : Option Nat
  allowed_content_types : List String
  resource_pattern_cache : Option G.Pat
  allowed_content_types_cache : List G.Pat

/-- Models `Permission::compile` (lib.rs lines 549-578): the resource
pattern is compiled with `Pattern::new(pat).ok()` and every content
type entry that compiles is pushed onto the cache, entries that fail to
compile are skipped. -/
def Permission.compile (G : GlobLib) (p : Permission) : CompiledPermission G where
  methods := p.methods
  resource_pattern := p.resource_pattern
  max_size := p.max_size
  allowed_content_types := p.allowed_content_types
  resource_pattern_cache :=
    match p.resource_pattern with
    | some pat => G.new pat
    | none => none
  allowed_content_types_cache := p.allowed_content_types.filterMap G.new

/-- Models `CompiledPermission::can_perform_method` (lib.rs lines
592-597). -/
def CompiledPermission.can_perform_method {G : GlobLib}
    (c : CompiledPermission G) (method : HttpMethod) : Bool :=
  c.methods.contains .All
    || c.methods.contains method
    || (c.methods.contains .Safe && method.safe)
    || (c.methods.contains .Unsafe && !method.safe)

/-- Models `CompiledPermission::can_access` (lib.rs lines 605-610). -/
def CompiledPermission.can_access {G : GlobLib}
    (c : CompiledPermission G) (path : String) : Bool :=
  match c.resource_pattern_cache with
  | some pat => G.pmatch pat path
  | none => false

/-- Models `CompiledPermission::check_size` (lib.rs lines 616-618). -/
def CompiledPermission.check_size {G : GlobLib}
    (c : CompiledPermission G) (size : Nat) : Bool :=
  match c.max_size with
  | none => true
  | some limit => decide (size ≤ limit)

/-- Models `CompiledPermission::check_content_type` (lib.rs lines
623-627). -/
def CompiledPermission.check_content_type {G : GlobLib}
    (c : CompiledPermission G) (content_type : String) : Bool :=
  c.allowed_content_types_cache.any fun allow_pat => G.pmatch allow_pat content_type

/-- Models `crab_vault_auth::error::AuthError` (error.rs).  The data
carried by the utf8, json and base64 variants is irrelevant to the
claims and is dropped. -/
inductive AuthError
  | MissingAuthHeader
  | InvalidAlgorithm (alg : Algorithm)
  | InvalidAuthFormat
  | InvalidKeyId
  | InvalidUtf8
  | InvalidJson
  | InvalidBase64
  | InvalidToken
  | TokenExpired
  | TokenNotYetValid
  | InvalidSignature
  | InvalidIssuer
  | InvalidAudience
  | InvalidSubject
  | MissingClaim (name : String)
  | InsufficientPermissions
  | TokenRevoked
  | InternalError (detail : String)
deriving DecidableEq

end CrabVaultAuth

namespace Jsonwebtoken

open CrabVaultAuth

/-- The kinds of `jsonwebtoken::errors::ErrorKind` that the modelled
code paths can produce. -/
inductive ErrorKind
  | ExpiredSignature
  | ImmatureSignature
  | InvalidIssuer
  | InvalidAudience
  | InvalidSignature
  | InvalidAlgorithm
  | InvalidToken
deriving DecidableEq

/-- Models the fields of `jsonwebtoken::Validation` that the repository
sets and the validation routine reads.  The `sub` check is never
enabled by this repository and is omitted; required-claim presence is
automatic because the envelope is kept in typed form. -/
structure Validation where
  algorithms : List Algorithm
  leeway : Nat
  reject_tokens_expiring_in_less_than : Nat
  validate_exp : Bool
  validate_nbf : Bool
  validate_aud : Bool
  iss : Option (List String)
  aud : Option (List String)
  required_spec_claims : List String

/-- Models `jsonwebtoken::Header`: the signing algorithm and the
optional key id. -/
structure Header where
  alg : Algorithm
  kid : Option String

/-- A compact JWT in structured form: the header, the claim envelope
carried by the payload segment, and the key material the signature was
produced with (standing in for the signature itself). -/
structure Token (P : Type) where
  header : Header
  claims : Jwt P
  sigKey : Nat

/-- Issuer check of the validation routine: when a trusted issuer set
is configured the claimed issuer must belong to it. -/
def issuerOk (v : Validation) {P : Type} (c : Jwt P) : Bool :=
  match v.iss with
  | none => true
  | some allowed => allowed.contains c.iss

/-- Audience check of the validation routine: when enabled and an
accepted audience set is configured, the claimed audiences must
intersect it. -/
def audienceOk (v : Validation) {P : Type} (c : Jwt P) : Bool :=
  if v.validate_aud then
    match v.aud with
    | none => true
    | some allowed => c.aud.any fun a => allowed.contains a
  else true

/-- Models the claim validation of `jsonwebtoken::decode` at time
`now`: expiry (with leeway and the near-expiry tolerance), not-before
(with leeway), then issuer and audience membership. -/
def validate (v : Validation) {P : Type} (c : Jwt P) (now : Int) :
    Except ErrorKind Unit :=
  if v.validate_exp ∧
      c.exp - (v.reject_tokens_expiring_in_less_than : Int) < now - (v.leeway : Int) then
    .error .ExpiredSignature
  else if v.validate_nbf ∧ now + (v.leeway : Int) < c.nbf then
    .error .ImmatureSignature
  else if !issuerOk v c then
    .error .InvalidIssuer
  else if !audienceOk v c then
    .error .InvalidAudience
  else
    .ok ()

/-- Models `jsonwebtoken::decode`: the header algorithm must be among
the accepted algorithms, the signature must verify against the given
key, and the claims must validate. -/
def decode {P : Type} (tok : Token P) (key : Nat) (v : Validation) (now : Int) :
    Except ErrorKind (Jwt P) :=
  if !(v.algorithms.contains tok.header.alg) then
    .error .InvalidAlgorithm
  else if tok.sigKey != key then
    .error .InvalidSignature
  else
    match validate v tok.claims now with
    | .error e => .error e
    | .ok _ => .ok tok.claims

end Jsonwebtoken

namespace CrabVaultAuth

open Jsonwebtoken

/-- Models the `From<jsonwebtoken::errors::Error>` conversion of
error.rs (lines 82-110) for the kinds the modelled code paths can
produce. -/
def AuthError.ofErrorKind : ErrorKind → AuthError
  | .ExpiredSignature => .TokenExpired
  | .InvalidSignature => .InvalidSignature
  | .InvalidIssuer => .InvalidIssuer
  | .InvalidAudience => .InvalidAudience
  | .ImmatureSignature => .TokenNotYetValid
  | .InvalidToken => .InvalidToken
  | .InvalidAlgorithm =>
      .InternalError "the algorithm in the header does not match the one passed to decode or the encoding/decoding key used does not match the alg requested"

/-- Models `crab_vault_auth::JwtEncoder` (lib.rs): the kid to
(EncodingKey, Algorithm) map, key material being a natural number, plus
the cached kid list.  The map is kept as an association list. -/
structure JwtEncoder where
  encoding_key : List (String × Nat × Algorithm)
  kids : List String

/-- Models `JwtEncoder::new` (lib.rs lines 137-141). -/
def JwtEncoder.mk_new (encoding_key : List (String × Nat × Algorithm)) : JwtEncoder where
  encoding_key := encoding_key
  kids := encoding_key.map Prod.fst

/-- Models `JwtEncoder::encode` (lib.rs lines 147-163): look the kid up
in the encoding map (an absent kid is an internal error), build a
header binding the kid and the algorithm of that kid, and sign the
claims envelope with the key of that kid. -/
def JwtEncoder.encode {P : Type} (enc : JwtEncoder) (claims : Jwt P) (kid : String) :
    Except AuthError (Token P) :=
  match enc.encoding_key.lookup kid with
  | none => .error (.InternalError "No such kid found in your encoder")
  | some (key, alg) => .ok { header := { alg := alg, kid := some kid }, claims := claims, sigKey := key }

/-- Models `crab_vault_auth::JwtDecoder` (lib.rs): the (iss, kid) to
DecodingKey map (kept as an association list) and the validation
settings. -/
structure JwtDecoder where
  decoding_keys : List ((String × String) × Nat)
  validation : Validation

/-- Models `JwtDecoder::new` (lib.rs lines 197-225).  The source panics
(via expect on the first element of the algorithm slice) when the slice
is empty; the panic is modelled as `none`.  Otherwise the validation is
populated exactly as in the source. -/
def JwtDecoder.mk_new (mapping : List ((String × String) × Nat))
    (algorithms : List Algorithm) (iss : List String) (aud : List String) :
    Option JwtDecoder :=
  match algorithms with
  | [] => none
  | _ :: _ =>
    some
      { decoding_keys := mapping
        validation :=
          { algorithms := algorithms
            leeway := 60
            reject_tokens_expiring_in_less_than := 0
            validate_exp := true
            validate_nbf := true
            validate_aud := true
            iss := some iss
            aud := some aud
            required_spec_claims := ["aud", "exp", "nbf", "iss"] } }

/-- Models `JwtDecoder::decode` (lib.rs lines 327-343): read the kid
from the unverified header (absence is a missing-claim failure), read
the claimed issuer from the unverified payload, resolve the decoding
key by the pair (iss, kid) (absence is reported as `InvalidIssuer`),
then run the full jsonwebtoken verification with that key. -/
def JwtDecoder.decode {P : Type} (d : JwtDecoder) (tok : Token P) (now : Int) :
    Except AuthError (Jwt P) :=
  match tok.header.kid with
  | none => .error (.MissingClaim "kid")
  | some kid =>
    match d.decoding_keys.lookup (tok.claims.iss, kid) with
    | none => .error .InvalidIssuer
    | some key =>
      match Jsonwebtoken.decode tok key d.validation now with
      | .error e => .error (AuthError.ofErrorKind e)
      | .ok claims => .ok claims

/-- Serde serialization of `crab_vault_auth::Jwt<P>` (lib.rs, struct
`Jwt`), given a serializer for the payload type.  The derive carries
`rename_all = camelCase` (identity on these single-word field names)
and the `load` field has no `flatten` attribute, so the payload is
emitted as the value of the top-level key `load`. -/
def serializeJwt {P : Type} (serP : P → Json) (j : Jwt P) : Json :=
  Json.obj
    [("iss", .str j.iss),
     ("aud", .arr (j.aud.map Json.str)),
     ("exp", .num j.exp),
     ("nbf", .num j.nbf),
     ("iat", .num j.iat),
     ("jti", .str j.jti),
     ("load", serP j.load)]

/-- Models the struct `TestPayload` of the crate test
tests/decoder_test.rs: a single string field named `message`. -/
structure TestPayload where
  message : String
deriving DecidableEq

/-- Serde serialization of `TestPayload`. -/
def TestPayload.serialize (p : TestPayload) : Json :=
  Json.obj [("message", .str p.message)]

end CrabVaultAuth

namespace CrabVault

/-- Models `crate::http::auth::HttpMethod` (http/auth.rs lines
363-380): the nine standard verbs, `Other`, and the pseudo-value `All`
(this revision has no Safe or Unsafe pseudo-values). -/
inductive HttpMethod
  | Get | Post | Put | Patch | Delete | Head | Options | Trace | Connect
  | Other
  | All
deriving DecidableEq

/-- Models `impl From<&axum::http::Method> for HttpMethod`
(http/auth.rs lines 463-478); the axum method is represented by its
name string. -/
def HttpMethod.fromAxum (m : String) : HttpMethod :=
  match m with
  | "GET" => .Get
  | "POST" => .Post
  | "PUT" => .Put
  | "PATCH" => .Patch
  | "DELETE" => .Delete
  | "HEAD" => .Head
  | "OPTIONS" => .Options
  | "TRACE" => .Trace
  | "CONNECT" => .Connect
  | _ => .Other

/-- Models `crate::http::auth::Conditions` (http/auth.rs). -/
structure Conditions where
  max_size : Option Nat
  allowed_content_types : List String
deriving DecidableEq

/-- Models `crate::http::auth::Permission` (http/auth.rs). -/
structure Permission where
  operations : List HttpMethod
  resource_pattern : String
  conditions : Conditions
deriving DecidableEq

/-- Models `Permission::new_root` (http/auth.rs lines 427-436). -/
def Permission.new_root : Permission where
  operations := [.All]
  resource_pattern := "*"
  conditions := { max_size := none, allowed_content_types := ["*"] }

/-- Models `Permission::can_perform` (http/auth.rs lines 439-441). -/
def Permission.can_perform (p : Permission) (method : HttpMethod) : Bool :=
  p.operations.contains .All || p.operations.contains method

/-- Models `Permission::can_access` (http/auth.rs lines 446-450): the
resource pattern is compiled on the spot and a compilation failure
yields false. -/
def Permission.can_access (G : GlobLib) (p : Permission) (path : String) : Bool :=
  match G.new p.resource_pattern with
  | some pattern => G.pmatch pattern path
  | none => false

/-- Models `Conditions::check_size` (http/auth.rs lines 491-493). -/
def Conditions.check_size (c : Conditions) (size : Nat) : Bool :=
  match c.max_size with
  | none => true
  | some limit => decide (size ≤ limit)

/-- Models `Conditions::check_content_type` (http/auth.rs lines
495-506): each allowed entry is compiled on the spot, a compilation
failure counting as no match. -/
def Conditions.check_content_type (G : GlobLib) (c : Conditions) (content_type : String) : Bool :=
  c.allowed_content_types.any fun allows =>
    match G.new allows with
    | some pat => G.pmatch pat content_type
    | none => false

/-- Models `Permission::check_size` (http/auth.rs lines 453-455). -/
def Permission.check_size (p : Permission) (size : Nat) : Bool :=
  p.conditions.check_size size

/-- Models `Permission::check_content_type` (http/auth.rs lines
458-460). -/
def Permission.check_content_type (G : GlobLib) (p : Permission) (content_type : String) : Bool :=
  p.conditions.check_content_type G content_type

/-- Models `crate::http::auth::Jwt<P>` (http/auth.rs lines 330-341):
the gateway claim envelope; here the payload field carries the
`serde(flatten)` attribute. -/
structure Jwt (P : Type) where
  iss : Option String
  aud : List String
  exp : Int
  nbf : Int
  iat : Int
  jti : Nat
  payload : P
deriving DecidableEq

/-- Serde serialization of the gateway `Jwt<P>`, given a serializer
producing the field list of the payload.  Because of
`serde(flatten)` the payload fields are appended to the same top-level
object as the standard claims. -/
def serializeJwt {P : Type} (fieldsP : P → List (String × Json)) (j : Jwt P) : Json :=
  Json.obj
    ([("iss", match j.iss with | some s => .str s | none => .null),
      ("aud", .arr (j.aud.map Json.str)),
      ("exp", .num j.exp),
      ("nbf", .num j.nbf),
      ("iat", .num j.iat),
      ("jti", .num (j.jti : Int))]
     ++ fieldsP j.payload)

/-- Models `crate::error::auth::AuthError` (error/auth.rs lines
9-53). -/
inductive AuthError
  | MissingAuthHeader
  | InvalidAlgorithm (alg : Algorithm)
  | InvalidAuthFormat
  | TokenInvalid
  | TokenExpired
  | TokenNotYetValid
  | InvalidSignature
  | InvalidIssuer
  | InvalidAudience
  | InvalidSubject
  | MissingClaim (name : String)
  | InsufficientPermissions
  | TokenRevoked
  | InternalError (detail : String)
deriving DecidableEq

/-- Models the status code chosen by `impl IntoResponse for AuthError`
(error/auth.rs lines 85-108), as a plain numeric HTTP status. -/
def AuthError.status : AuthError → Nat
  | .MissingAuthHeader
  | .InvalidAuthFormat
  | .TokenInvalid
  | .TokenExpired
  | .TokenNotYetValid
  | .InvalidAlgorithm _
  | .InvalidSignature
  | .InvalidIssuer
  | .InvalidAudience
  | .InvalidSubject
  | .MissingClaim _
  | .TokenRevoked => 401
  | .InsufficientPermissions => 403
  | .InternalError _ => 500

/-- Models the variants of `crate::error::api::ApiError` that the
middleware produces.  The revision of error/api.rs in the tree names
the header-value decoding failure `HeaderWithOpaqueBytes` while the
middleware refers to it as `EncodingError`; the middleware spelling is
kept. -/
inductive ApiError
  | MissingContentType
  | InvalidContentType
  | MissingContentLength
  | BodyTooLarge
  | ValueParsingError
  | EncodingError
deriving DecidableEq

/-- The terminal response of a rejected request: either an auth error
or an api error, each carrying its own status mapping. -/
inductive Response
  | auth (e : AuthError)
  | api (e : ApiError)
deriving DecidableEq

/-- Models `axum::http::HeaderValue`: the carried text together with a
flag telling whether `to_str` succeeds (it fails on bytes outside
visible ASCII). -/
structure HeaderValue where
  s : String
  valid : Bool
deriving DecidableEq

/-- Models `HeaderValue::to_str`. -/
def HeaderValue.to_str (h : HeaderValue) : Option String :=
  if h.valid then some h.s else none

/-- A header map, as an association list from lowercase header names to
values. -/
abbrev Headers := List (String × HeaderValue)

/-- Models `HeaderMap::get` for our association-list header map. -/
def headerGet (headers : Headers) (name : String) : Option HeaderValue :=
  (headers.find? fun h => h.fst == name).map Prod.snd

/-- Models `auth_header.strip_prefix("Bearer ")` from the middleware,
spelled on the character list so that it evaluates by reduction. -/
def stripBearer (s : String) : Option String :=
  if "Bearer ".data.isPrefixOf s.data then some ⟨s.data.drop 7⟩ else none

/-- Models `str::parse::<usize>` as used on the Content-Length value:
a non-empty run of ASCII digits parses to its value, anything else is a
parse error.  (Integer overflow of usize is not modelled.) -/
def parseUsize (s : String) : Option Nat :=
  match s.data with
  | [] => none
  | ds =>
    if ds.all Char.isDigit then
      some (ds.foldl (fun acc c => acc * 10 + (c.toNat - 48)) 0)
    else none

/-- Models `PathRulesCache::should_not_protect`
(http/middleware/auth.rs lines 44-59): scan the compiled rules in
order and return true on the first rule whose pattern matches the path
and whose allowed methods contain `All` or the request method. -/
def should_not_protect (G : GlobLib) (path_rules : List (G.Pat × List HttpMethod))
    (path : String) (method : HttpMethod) : Bool :=
  match path_rules with
  | [] => false
  | (pattern, allowed_method) :: rest =>
    if G.pmatch pattern path
        && (allowed_method.contains .All || allowed_method.contains method) then
      true
    else
      should_not_protect G rest path method

/-- Models `extract_and_validate_token` (http/middleware/auth.rs lines
154-203).  The JWT decoding step is abstracted by the `decodeJwt`
argument, standing for `Jwt::decode` applied with the configured
`JwtConfig`.  The steps mirror the source: authorization header,
bearer format, token verification, content length, size check, method
and path check, content type check. -/
def extract_and_validate_token (G : GlobLib)
    (decodeJwt : String → Except AuthError (Jwt Permission))
    (headers : Headers) (method : HttpMethod) (path : String) :
    Except Response Permission :=
  match headerGet headers "authorization" with
  | none => .error (.auth .MissingAuthHeader)
  | some hv =>
    match hv.to_str with
    | none => .error (.auth .InvalidAuthFormat)
    | some auth_header =>
      match stripBearer auth_header with
      | none => .error (.auth .InvalidAuthFormat)
      | some token =>
        match decodeJwt token with
        | .error e => .error (.auth e)
        | .ok jwt =>
          match headerGet headers "content-length" with
          | none => .error (.api .MissingContentLength)
          | some clv =>
            match clv.to_str with
            | none => .error (.api .EncodingError)
            | some cls =>
              match parseUsize cls with
              | none => .error (.api .ValueParsingError)
              | some content_length =>
                if !(jwt.payload.check_size content_length) then
                  .error (.api .BodyTooLarge)
                else if !(jwt.payload.can_perform method)
                    || !(jwt.payload.can_access G path) then
                  .error (.auth .InsufficientPermissions)
                else
                  match headerGet headers "content-type" with
                  | none => .error (.api .MissingContentType)
                  | some ctv =>
                    match ctv.to_str with
                    | none => .error (.api .InvalidContentType)
                    | some content_type =>
                      if !(jwt.payload.check_content_type G content_type) then
                        .error (.api .InvalidContentType)
                      else
                        .ok jwt.payload

/-- Outcome of the middleware for one request: either the request is
forwarded to the inner service with a Permission attached to its
extensions, or a terminal response is returned. -/
inductive AuthOutcome
  | forward (p : Permission)
  | reject (r : Response)
deriving DecidableEq

/-- Models the request handling of
`impl Service for AuthMiddleware` (http/middleware/auth.rs lines
80-117): a bypassed request is forwarded with a root Permission, any
other request goes through token extraction and validation. -/
def AuthMiddleware.call (G : GlobLib) (path_rules : List (G.Pat × List HttpMethod))
    (decodeJwt : String → Except AuthError (Jwt Permission))
    (headers : Headers) (method : HttpMethod) (path : String) : AuthOutcome :=
  if should_not_protect G path_rules path method then
    .forward Permission.new_root
  else
    match extract_and_validate_token G decodeJwt headers method path with
    | .ok permission => .forward permission
    | .error e => .reject e

end CrabVault

/-!
Theorems.  Each claim of the specification is settled by one theorem
below; witnesses instantiate the hypothesis-bearing theorems at
concrete inputs.
-/

/-- Claim C7: the HTTP status attached to an authorization error is
401 Unauthorized for MissingAuthHeader, InvalidAuthFormat,
TokenInvalid, TokenExpired, TokenNotYetValid, InvalidSignature,
InvalidIssuer, InvalidAudience, InvalidSubject, MissingClaim,
TokenRevoked and InvalidAlgorithm, and 403 Forbidden for
InsufficientPermissions. -/
theorem auth_error_status_mapping :
    (∀ alg : Algorithm, (CrabVault.AuthError.InvalidAlgorithm alg).status = 401)
    ∧ (∀ name : String, (CrabVault.AuthError.MissingClaim name).status = 401)
    ∧ CrabVault.AuthError.MissingAuthHeader.status = 401
    ∧ CrabVault.AuthError.InvalidAuthFormat.status = 401
    ∧ CrabVault.AuthError.TokenInvalid.status = 401
    ∧ CrabVault.AuthError.TokenExpired.status = 401
    ∧ CrabVault.AuthError.TokenNotYetValid.status = 401
    ∧ CrabVault.AuthError.InvalidSignature.status = 401
    ∧ CrabVault.AuthError.InvalidIssuer.status = 401
    ∧ CrabVault.AuthError.InvalidAudience.status = 401
    ∧ CrabVault.AuthError.InvalidSubject.status = 401
    ∧ CrabVault.AuthError.TokenRevoked.status = 401
    ∧ CrabVault.AuthError.InsufficientPermissions.status = 403 :=
  ⟨fun _ => rfl, fun _ => rfl, rfl, rfl, rfl, rfl, rfl, rfl, rfl, rfl, rfl, rfl, rfl⟩

/-- Claim C9: converting an incoming transport method yields one of
the nine standard variants or Other, never the pseudo-variants All,
Safe or Unsafe; likewise the gateway revision of the conversion never
yields its pseudo-variant All. -/
theorem axum_method_conversion_range :
    ∀ m : String,
      CrabVaultAuth.HttpMethod.fromAxum m ∈ CrabVaultAuth.requestMethods
      ∧ CrabVaultAuth.HttpMethod.fromAxum m ≠ .All
      ∧ CrabVaultAuth.HttpMethod.fromAxum m ≠ .Safe
      ∧ CrabVaultAuth.HttpMethod.fromAxum m ≠ .Unsafe
      ∧ CrabVault.HttpMethod.fromAxum m ≠ .All := by
  intro m
  unfold CrabVaultAuth.HttpMethod.fromAxum CrabVault.HttpMethod.fromAxum
  refine ⟨?_, ?_, ?_, ?_, ?_⟩ <;> (split <;> decide)

/-- Claim C10: constructing a JwtDecoder with an empty accepted
algorithm slice panics (modelled by none); with a non-empty slice it
returns normally and the accepted algorithm set of its validation is
exactly the given slice. -/
theorem jwt_decoder_new_spec :
    ∀ (mapping : List ((String × String) × Nat)) (algorithms : List Algorithm)
      (iss aud : List String),
      (algorithms = [] → CrabVaultAuth.JwtDecoder.mk_new mapping algorithms iss aud = none)
      ∧ (∀ a rest, algorithms = a :: rest →
          ∃ d, CrabVaultAuth.JwtDecoder.mk_new mapping algorithms iss aud = some d
            ∧ d.validation.algorithms = algorithms) := by
  intro mapping algorithms iss aud
  constructor
  · rintro rfl
    rfl
  · rintro a rest rfl
    exact ⟨_, rfl, rfl⟩

/-- Witness for C10 at concrete inputs: the empty slice gives none,
the slice consisting of HS256 gives a decoder accepting exactly
HS256. -/
theorem jwt_decoder_new_spec_witness :
    CrabVaultAuth.JwtDecoder.mk_new [] [] [] [] = none
    ∧ ∃ d, CrabVaultAuth.JwtDecoder.mk_new [] [Algorithm.HS256] [] [] = some d
        ∧ d.validation.algorithms = [Algorithm.HS256] :=
  ⟨(jwt_decoder_new_spec [] [] [] []).1 rfl,
   (jwt_decoder_new_spec [] [Algorithm.HS256] [] []).2 Algorithm.HS256 [] rfl⟩

/-- Claim C3: when the header carries a kid but the decoder key map
has no entry for the pair (claimed issuer, kid), decode fails with
InvalidIssuer. -/
theorem decode_unknown_kid_invalid_issuer :
    ∀ {P : Type} (d : CrabVaultAuth.JwtDecoder) (tok : Jsonwebtoken.Token P)
      (now : Int) (kid : String),
      tok.header.kid = some kid →
      d.decoding_keys.lookup (tok.claims.iss, kid) = none →
      d.decode tok now = .error .InvalidIssuer := by
  intro P d tok now kid hkid hlookup
  simp [CrabVaultAuth.JwtDecoder.decode, hkid, hlookup]

/-- Witness for C3: a token with kid k1 and issuer iss-a checked
against a decoder whose only entry is for (iss-a, k2) fails with
InvalidIssuer, even though an entry with the same issuer and another
kid exists. -/
theorem decode_unknown_kid_invalid_issuer_witness :
    CrabVaultAuth.JwtDecoder.decode (P := Unit)
      { decoding_keys := [(("iss-a", "k2"), 7)]
        validation :=
          { algorithms := [Algorithm.HS256]
            leeway := 0
            reject_tokens_expiring_in_less_than := 0
            validate_exp := true
            validate_nbf := true
            validate_aud := true
            iss := some ["iss-a"]
            aud := some ["aud-1"]
            required_spec_claims := ["aud", "exp", "nbf", "iss"] } }
      { header := { alg := .HS256, kid := some "k1" }
        claims := { iss := "iss-a", aud := ["aud-1"], exp := 1000, nbf := 0,
                    iat := 0, jti := "jti-1", load := () }
        sigKey := 7 }
      0
    = .error .InvalidIssuer :=
  decode_unknown_kid_invalid_issuer _ _ 0 "k1" rfl rfl

/-- Claim C1: for a claims envelope that passes the decoder validation
and a kid present in the encoder map, decoding the token produced by
encode with a decoder holding the matching (issuer, kid) decoding key
for the same algorithm succeeds and returns the same envelope. -/
theorem jwt_encode_decode_roundtrip :
    ∀ {P : Type} (enc : CrabVaultAuth.JwtEncoder) (d : CrabVaultAuth.JwtDecoder)
      (claims : CrabVaultAuth.Jwt P) (kid : String) (key : Nat) (alg : Algorithm) (now : Int),
      enc.encoding_key.lookup kid = some (key, alg) →
      d.decoding_keys.lookup (claims.iss, kid) = some key →
      d.validation.algorithms.contains alg = true →
      Jsonwebtoken.validate d.validation claims now = .ok () →
      ∃ tok, enc.encode claims kid = .ok tok ∧ d.decode tok now = .ok claims := by
  intro P enc d claims kid key alg now henc hdec halg hval
  have htok : enc.encode claims kid
      = .ok { header := { alg := alg, kid := some kid }, claims := claims, sigKey := key } := by
    simp [CrabVaultAuth.JwtEncoder.encode, henc]
  refine ⟨_, htok, ?_⟩
  have halgMem : alg ∈ d.validation.algorithms := by simpa using halg
  simp [CrabVaultAuth.JwtDecoder.decode, Jsonwebtoken.decode, hdec, halgMem, hval]

/-- Witness for C1 at a concrete key ring, envelope and time. -/
theorem jwt_encode_decode_roundtrip_witness :
    ∃ tok,
      (CrabVaultAuth.JwtEncoder.mk_new [("k1", (5, Algorithm.HS256))]).encode
        (P := Unit)
        { iss := "iss-a", aud := ["aud-1"], exp := 1000000, nbf := 0, iat := 0,
          jti := "jti-1", load := () } "k1" = .ok tok
      ∧ CrabVaultAuth.JwtDecoder.decode
          { decoding_keys := [(("iss-a", "k1"), 5)]
            validation :=
              { algorithms := [Algorithm.HS256]
                leeway := 60
                reject_tokens_expiring_in_less_than := 0
                validate_exp := true
                validate_nbf := true
                validate_aud := true
                iss := some ["iss-a"]
                aud := some ["aud-1"]
                required_spec_claims := ["aud", "exp", "nbf", "iss"] } }
          tok 1000
        = .ok { iss := "iss-a", aud := ["aud-1"], exp := 1000000, nbf := 0, iat := 0,
                jti := "jti-1", load := () } :=
  jwt_encode_decode_roundtrip _ _ _ "k1" 5 Algorithm.HS256 1000 rfl rfl rfl rfl

/-- Claim C5: for a request method (one of the nine standard variants
or Other), can_perform_method holds exactly when the methods list
contains All, or the method itself, or Safe together with the method
being GET, HEAD, OPTIONS or TRACE, or Unsafe together with the method
being POST, PUT, PATCH, DELETE, CONNECT or non-standard; and CONNECT
is classified as not read-only. -/
theorem can_perform_method_characterization :
    ∀ (G : GlobLib) (c : CrabVaultAuth.CompiledPermission G)
      (m : CrabVaultAuth.HttpMethod),
      m ∈ CrabVaultAuth.requestMethods →
      (c.can_perform_method m = true ↔
        (c.methods.contains .All = true
          ∨ c.methods.contains m = true
          ∨ (c.methods.contains .Safe = true
              ∧ m ∈ [CrabVaultAuth.HttpMethod.Get, .Head, .Options, .Trace])
          ∨ (c.methods.contains .Unsafe = true
              ∧ m ∈ [CrabVaultAuth.HttpMethod.Post, .Put, .Patch, .Delete, .Connect, .Other])))
      ∧ CrabVaultAuth.HttpMethod.safe .Connect = false := by
  intro G c m hm
  refine ⟨?_, rfl⟩
  fin_cases hm <;>
    simp [CrabVaultAuth.CompiledPermission.can_perform_method, CrabVaultAuth.HttpMethod.safe] <;>
    tauto

/-- Witness for C5: a permission holding only the pseudo-value Safe
allows GET. -/
theorem can_perform_method_characterization_witness :
    (CrabVaultAuth.Permission.compile trivialGlob
      { methods := [.Safe], resource_pattern := none, max_size := none,
        allowed_content_types := [] }).can_perform_method .Get = true :=
  (can_perform_method_characterization trivialGlob _ .Get (by decide)).1.mpr
    (Or.inr (Or.inr (Or.inl ⟨by decide, by decide⟩)))

/-- Claim C8: compiling a Permission never fails; every content-type
entry with invalid glob syntax is silently omitted from the compiled
matchers, and check_content_type holds exactly when some
syntactically valid entry matches the content type (in particular it
is false when the list is empty or only holds invalid patterns). -/
theorem compile_tolerates_invalid_globs :
    ∀ (G : GlobLib) (p : CrabVaultAuth.Permission) (ct : String),
      (p.compile G).allowed_content_types_cache = p.allowed_content_types.filterMap G.new
      ∧ ((p.compile G).check_content_type ct = true ↔
          ∃ s ∈ p.allowed_content_types,
            ∃ pat, G.new s = some pat ∧ G.pmatch pat ct = true) := by
  intro G p ct
  refine ⟨rfl, ?_⟩
  rw [show (p.compile G).check_content_type ct
        = (p.allowed_content_types.filterMap G.new).any (fun pat => G.pmatch pat ct) from rfl,
      List.any_eq_true]
  constructor
  · rintro ⟨pat, hmem, hmatch⟩
    rcases List.mem_filterMap.mp hmem with ⟨s, hs, hnew⟩
    exact ⟨s, hs, pat, hnew, hmatch⟩
  · rintro ⟨s, hs, pat, hnew, hmatch⟩
    exact ⟨pat, List.mem_filterMap.mpr ⟨s, hs, hnew⟩, hmatch⟩

/-- Claim C6: the bypass check holds exactly when some configured rule
has a pattern matching the path and a public-method set containing the
method or All (the scan stops at the first such rule, which does not
change the boolean outcome); and whenever the bypass applies, the
middleware forwards the request with a root Permission attached and no
token is required. -/
theorem path_rule_bypass_characterization :
    ∀ (G : GlobLib) (rules : List (G.Pat × List CrabVault.HttpMethod))
      (path : String) (method : CrabVault.HttpMethod)
      (decodeJwt : String → Except CrabVault.AuthError (CrabVault.Jwt CrabVault.Permission))
      (headers : CrabVault.Headers),
      (CrabVault.should_not_protect G rules path method = true ↔
        ∃ r ∈ rules, G.pmatch r.1 path = true
          ∧ (r.2.contains CrabVault.HttpMethod.All = true ∨ r.2.contains method = true))
      ∧ (CrabVault.should_not_protect G rules path method = true →
          CrabVault.AuthMiddleware.call G rules decodeJwt headers method path
            = .forward CrabVault.Permission.new_root) := by
  intro G rules path method decodeJwt headers
  constructor
  · induction rules with
    | nil => simp [CrabVault.should_not_protect]
    | cons r rest ih =>
      obtain ⟨pattern, allowed⟩ := r
      cases hb : (G.pmatch pattern path
          && (allowed.contains CrabVault.HttpMethod.All || allowed.contains method)) with
      | true =>
        have hsplit : G.pmatch pattern path = true
            ∧ ((allowed.contains CrabVault.HttpMethod.All) = true
                ∨ (allowed.contains method) = true) := by
          simpa using hb
        simp only [CrabVault.should_not_protect, hb, if_true]
        constructor
        · intro _
          exact ⟨(pattern, allowed), List.mem_cons_self _ _, hsplit.1, hsplit.2⟩
        · intro _
          trivial
      | false =>
        simp only [CrabVault.should_not_protect, hb, Bool.false_eq_true, if_false]
        rw [ih]
        constructor
        · rintro ⟨r, hr, hp, hm⟩
          exact ⟨r, List.mem_cons_of_mem _ hr, hp, hm⟩
        · rintro ⟨r, hr, hp, hm⟩
          rcases List.mem_cons.mp hr with heq | hr2
          · exfalso
            subst heq
            have htrue : (G.pmatch pattern path
                && (allowed.contains CrabVault.HttpMethod.All
                    || allowed.contains method)) = true := by
              rcases hm with h1 | h1 <;> simp_all
            rw [htrue] at hb
            exact Bool.noConfusion hb
          · exact ⟨r, hr2, hp, hm⟩
  · intro h
    simp [CrabVault.AuthMiddleware.call, h]

/-- Witness for C6: with a single rule whose pattern matches the path
and whose public methods contain All, the bypass applies and the
middleware forwards a root Permission even though the decoder rejects
everything and no headers are present. -/
theorem path_rule_bypass_characterization_witness :
    CrabVault.should_not_protect trivialGlob [((), [CrabVault.HttpMethod.All])] "/pub" .Get = true
    ∧ CrabVault.AuthMiddleware.call trivialGlob [((), [CrabVault.HttpMethod.All])]
        (fun _ => .error .TokenInvalid) [] .Get "/pub"
      = .forward CrabVault.Permission.new_root := by
  have h := path_rule_bypass_characterization trivialGlob [((), [CrabVault.HttpMethod.All])]
    "/pub" .Get (fun _ => .error .TokenInvalid) []
  have hs : CrabVault.should_not_protect trivialGlob
      [((), [CrabVault.HttpMethod.All])] "/pub" .Get = true :=
    h.1.mpr ⟨((), [CrabVault.HttpMethod.All]), List.mem_cons_self _ _, rfl, Or.inl rfl⟩
  exact ⟨hs, h.2 hs⟩

/-- Counterexample to claim C2: a GET request addressing a single
top-level collection (path /mybucket, no object segment), carrying a
token that passes verification with a root Permission but no
Content-Length header, is rejected by the middleware with
MissingContentLength — the size check is not skipped for bucket-level
or read-only requests. -/
theorem middleware_content_length_counterexample :
    CrabVault.extract_and_validate_token trivialGlob
      (fun _ => .ok { iss := some "iss-a", aud := [], exp := 0, nbf := 0, iat := 0,
                      jti := 0, payload := CrabVault.Permission.new_root })
      [("authorization", { s := "Bearer t", valid := true })]
      .Get "/mybucket"
    = .error (.api .MissingContentLength) := rfl

/-- Claim C2 as amended: after token verification the middleware reads
Content-Length unconditionally — for every method (read-only or not)
and every path (bucket-level or not), a verified request without a
Content-Length header is rejected with MissingContentLength. -/
theorem middleware_always_requires_content_length :
    ∀ (G : GlobLib) (decodeJwt : String → Except CrabVault.AuthError (CrabVault.Jwt CrabVault.Permission))
      (headers : CrabVault.Headers) (method : CrabVault.HttpMethod) (path : String)
      (hv : CrabVault.HeaderValue) (token : String) (jwt : CrabVault.Jwt CrabVault.Permission),
      CrabVault.headerGet headers "authorization" = some hv →
      hv.valid = true →
      CrabVault.stripBearer hv.s = some token →
      decodeJwt token = .ok jwt →
      CrabVault.headerGet headers "content-length" = none →
      CrabVault.extract_and_validate_token G decodeJwt headers method path
        = .error (.api .MissingContentLength) := by
  intro G decodeJwt headers method path hv token jwt hauth hvalid hbearer hdecode hnocl
  have hstr : hv.to_str = some hv.s := by
    simp [CrabVault.HeaderValue.to_str, hvalid]
  simp [CrabVault.extract_and_validate_token, hauth, hstr, hbearer, hdecode, hnocl]

/-- Witness for the amended C2 at the concrete request of the
counterexample. -/
theorem middleware_always_requires_content_length_witness :
    CrabVault.extract_and_validate_token trivialGlob
      (fun _ => .ok { iss := some "iss-a", aud := [], exp := 0, nbf := 0, iat := 0,
                      jti := 0, payload := CrabVault.Permission.new_root })
      [("authorization", { s := "Bearer tok", valid := true })]
      .Put "/mybucket/obj"
    = .error (.api .MissingContentLength) :=
  middleware_always_requires_content_length trivialGlob _ _ .Put "/mybucket/obj"
    { s := "Bearer tok", valid := true } "tok"
    { iss := some "iss-a", aud := [], exp := 0, nbf := 0, iat := 0,
      jti := 0, payload := CrabVault.Permission.new_root }
    rfl rfl (by decide) rfl rfl

/-- Counterexample to claim C4: serializing a crab-vault-auth claim
envelope with a payload holding a field named message does not place
that field in the top-level JSON object; the whole payload appears as
a nested object under the key load (matching what the crate test
decoder_test.rs asserts on the wire). -/
theorem payload_flattening_counterexample :
    (CrabVaultAuth.serializeJwt CrabVaultAuth.TestPayload.serialize
        { iss := "iss-a", aud := ["aud-1"], exp := 10, nbf := 0, iat := 0,
          jti := "jti-1", load := { message := "hi" } }).lookupKey "message" = none
    ∧ (CrabVaultAuth.serializeJwt CrabVaultAuth.TestPayload.serialize
        { iss := "iss-a", aud := ["aud-1"], exp := 10, nbf := 0, iat := 0,
          jti := "jti-1", load := { message := "hi" } }).lookupKey "load"
      = some (Json.obj [("message", Json.str "hi")]) :=
  ⟨rfl, rfl⟩

/-- Claim C4 as amended: the crab-vault-auth envelope serializes the
custom payload as a nested object under the top-level key load, its
top-level keys being exactly the six standard claims plus load; only
the gateway envelope of http/auth.rs, whose payload field carries
serde(flatten), appends the payload fields to the same top-level
object as the standard claims. -/
theorem payload_wire_shape_amended :
    ∀ (P : Type) (serP : P → Json) (fieldsP : P → List (String × Json))
      (j : CrabVaultAuth.Jwt P) (jl : CrabVault.Jwt P),
      (CrabVaultAuth.serializeJwt serP j).lookupKey "load" = some (serP j.load)
      ∧ (CrabVaultAuth.serializeJwt serP j).keys
          = ["iss", "aud", "exp", "nbf", "iat", "jti", "load"]
      ∧ (CrabVault.serializeJwt fieldsP jl).keys
          = ["iss", "aud", "exp", "nbf", "iat", "jti"] ++ (fieldsP jl.payload).map Prod.fst := by
  intro P serP fieldsP j jl
  refine ⟨rfl, rfl, ?_⟩
  simp [CrabVault.serializeJwt, Json.keys]

/-- Witness for C8: with a glob library rejecting the pattern
string consisting of an opening bracket, a permission whose list holds
that invalid pattern and a valid one accepts exactly the content type
the valid entry matches. -/
theorem compile_tolerates_invalid_globs_witness :
    (CrabVaultAuth.Permission.compile literalGlob
      { methods := [], resource_pattern := none, max_size := none,
        allowed_content_types := ["[", "image/png"] }).check_content_type "image/png" = true :=
  (compile_tolerates_invalid_globs literalGlob
    { methods := [], resource_pattern := none, max_size := none,
      allowed_content_types := ["[", "image/png"] } "image/png").2.mpr
    ⟨"image/png", by decide, "image/png", rfl, rfl⟩

/-- Witness for C9: a non-standard method name converts to Other, a
member of the request-method range. -/
theorem axum_method_conversion_range_witness :
    CrabVaultAuth.HttpMethod.fromAxum "QUERY" ∈ CrabVaultAuth.requestMethods :=
  (axum_method_conversion_range "QUERY").1
